import Mathlib

/-!
Shallow embedding of the FastEncodePro timeline rendering engine
(`src/FastEncodePro.py`), restricted to the parts exercised by the
verified properties: the `TimelineClip` data model, the timeline queries
`get_timeline_duration` / `get_clip_at_timeline_time`, the render-plan
builder `_build_render_plan`, the per-segment decode/pad loop of
`render` / `_stream_segment_to_encoder`, and the scratch-directory and
failure-path control flow of `render`.

Modelling conventions:
* Python floats carrying times/fps are modelled as `ℚ`; every concrete
  value exercised here is exactly representable, so float rounding never
  changes a comparison in the proved statements.
* Python `int(x)` (truncation toward zero) applied to the nonnegative
  products appearing here coincides with `⌊x⌋.toNat`; for a negative
  product, `range(int(x))` is empty in Python and `⌊x⌋.toNat = 0` here,
  so the observable plan is identical.
* Byte strings are `List ℕ` (one entry per byte).
* External effects (subprocesses, the filesystem, `shutil.disk_usage`)
  are modelled by an explicit environment record; the control flow of
  `render` is transliterated over it.
-/

/-- Models `pathlib.Path(p).name`: the final path component. -/
def path_name (p : String) : String :=
  (p.splitOn "/").getLastD ""

/-- Embedding of class `TimelineClip` (FastEncodePro.py:610-624): the
stored attributes after `__init__` has run. -/
structure TimelineClip where
  file_path : String
  track : ℤ
  start_time : ℚ
  in_point : ℚ
  name : String
  full_duration : ℚ
  out_point : ℚ
deriving DecidableEq, Repr

namespace TimelineClip

/-- Embedding of `TimelineClip.__init__` (FastEncodePro.py:612-624) with
an explicit `duration` argument, so that `get_video_duration` (an
`ffprobe` call) is never consulted.  The two sequential normalisations of
`out_point` are transliterated in order. -/
def init (file_path : String) (track : ℤ) (start_time : ℚ) (in_point : ℚ)
    (out_point : Option ℚ) (duration : ℚ) : TimelineClip :=
  let full_duration := duration
  let out1 : ℚ :=
    match out_point with
    | none => full_duration
    | some op => if op ≤ 0 then full_duration else op
  let out2 : ℚ := if out1 ≤ in_point then full_duration else out1
  { file_path := file_path, track := track, start_time := start_time,
    in_point := in_point, name := path_name file_path,
    full_duration := full_duration, out_point := out2 }

/-- Embedding of `TimelineClip.get_trimmed_duration` (FastEncodePro.py:632). -/
def get_trimmed_duration (c : TimelineClip) : ℚ :=
  c.out_point - c.in_point

/-- Embedding of `TimelineClip.get_end_time` (FastEncodePro.py:635). -/
def get_end_time (c : TimelineClip) : ℚ :=
  c.start_time + c.get_trimmed_duration

/-- Embedding of `TimelineClip.timeline_time_to_clip_time`
(FastEncodePro.py:639-644). -/
def timeline_time_to_clip_time (c : TimelineClip) (timeline_time : ℚ) : Option ℚ :=
  if timeline_time < c.start_time ∨ timeline_time > c.get_end_time then none
  else
    let offset := timeline_time - c.start_time
    some (c.in_point + offset)

/-- Embedding of the dict produced by `TimelineClip.to_dict`
(FastEncodePro.py:646-654). -/
structure Dict where
  file_path : String
  track : ℤ
  start_time : ℚ
  in_point : ℚ
  out_point : ℚ
  duration : ℚ
deriving DecidableEq, Repr

/-- Embedding of `TimelineClip.to_dict` (FastEncodePro.py:646-654). -/
def to_dict (c : TimelineClip) : Dict :=
  { file_path := c.file_path, track := c.track, start_time := c.start_time,
    in_point := c.in_point, out_point := c.out_point, duration := c.full_duration }

/-- Embedding of `TimelineClip.from_dict` (FastEncodePro.py:656-665):
re-runs the constructor on the stored fields (the stored `out_point` is
passed positionally, never `None`). -/
def from_dict (data : Dict) : TimelineClip :=
  init data.file_path data.track data.start_time data.in_point
    (some data.out_point) data.duration

end TimelineClip

/-- The timeline handed to the engine: the editor's clip list
(`self.timeline.clips`); list order is the order the engine iterates in. -/
structure Timeline where
  clips : List TimelineClip
deriving DecidableEq, Repr

/-- Embedding of `TimelineRenderingEngine.get_timeline_duration`
(FastEncodePro.py:931-934): `max(clip.get_end_time() for clip in clips)`,
`0` for an empty timeline. -/
def get_timeline_duration (tl : Timeline) : ℚ :=
  match tl.clips with
  | [] => 0
  | c :: rest => rest.foldl (fun m x => max m x.get_end_time) c.get_end_time

/-- Helper capturing `candidates.sort(key=lambda x: x.track, reverse=True)`
followed by `candidates[0]` (FastEncodePro.py:943-944): Python's sort is
stable, so the head of the reverse-sorted list is the first candidate (in
list order) whose track is maximal. -/
def first_highest_track : List TimelineClip → Option TimelineClip
  | [] => none
  | c :: rest =>
    match first_highest_track rest with
    | none => some c
    | some b => if b.track > c.track then some b else some c

/-- Embedding of `TimelineRenderingEngine.get_clip_at_timeline_time`
(FastEncodePro.py:936-944). -/
def get_clip_at_timeline_time (tl : Timeline) (timeline_time : ℚ) : Option TimelineClip :=
  let candidates := tl.clips.filter fun c =>
    decide (c.start_time ≤ timeline_time ∧ timeline_time < c.get_end_time)
  first_highest_track candidates

/-- The `'type'` field of a plan segment dict. -/
inductive SegKind where
  | clip
  | blank
deriving DecidableEq, Repr

/-- Embedding of the segment dicts built by `_build_render_plan`
(FastEncodePro.py:978-999). -/
structure Segment where
  kind : SegKind
  clip : Option TimelineClip
  start_frame : ℕ
  count : ℕ
  timeline_start : ℚ
deriving DecidableEq, Repr

/-- Mutable loop state of `_build_render_plan` (FastEncodePro.py:972-975). -/
structure PlanState where
  segments : List Segment
  current_clip : Option TimelineClip
  segment_start_frame : ℕ
  frames_in_segment : ℕ
deriving Repr

/-- The `segments.append({...})` performed both inside the loop and after
it (FastEncodePro.py:980-987 and 992-999), guarded by
`frames_in_segment > 0`. -/
def flush_segment (timeline_fps : ℚ) (s : PlanState) : List Segment :=
  if s.frames_in_segment > 0 then
    s.segments ++
      [{ kind := if s.current_clip.isSome then SegKind.clip else SegKind.blank,
         clip := s.current_clip,
         start_frame := s.segment_start_frame,
         count := s.frames_in_segment,
         timeline_start := (s.segment_start_frame : ℚ) / timeline_fps }]
  else s.segments

/-- One iteration of the `for i in range(total_frames)` loop of
`_build_render_plan` (FastEncodePro.py:976-991). -/
def plan_step (tl : Timeline) (timeline_fps : ℚ) (s : PlanState) (i : ℕ) : PlanState :=
  let time := (i : ℚ) / timeline_fps
  let visible_clip := get_clip_at_timeline_time tl time
  let s1 :=
    if visible_clip ≠ s.current_clip then
      { segments := flush_segment timeline_fps s,
        current_clip := visible_clip,
        segment_start_frame := i,
        frames_in_segment := 0 }
    else s
  { s1 with frames_in_segment := s1.frames_in_segment + 1 }

/-- Embedding of `TimelineRenderingEngine._build_render_plan`
(FastEncodePro.py:968-1000). -/
def build_render_plan (tl : Timeline) (total_frames : ℕ) (timeline_fps : ℚ) :
    List Segment :=
  if total_frames = 0 then []
  else
    flush_segment timeline_fps
      ((List.range total_frames).foldl (plan_step tl timeline_fps)
        { segments := [], current_clip := none,
          segment_start_frame := 0, frames_in_segment := 0 })

/-- Models `total_frames = int(timeline_duration * timeline_fps)`
(FastEncodePro.py:1060): `int()` truncates toward zero, which agrees with
`⌊·⌋.toNat` for the nonnegative products arising here (and both yield an
empty `range` for a negative product). -/
def total_frames_of (timeline_duration timeline_fps : ℚ) : ℕ :=
  (⌊timeline_duration * timeline_fps⌋).toNat

/-- The solid-black YUV420p frame built by `render`
(FastEncodePro.py:1085 and 1108): `bytes([16]*(W*H)) + bytes([128]*(W*H//2))`,
i.e. every luma byte 16 and every chroma byte 128. -/
def black_frame (width height : ℕ) : List ℕ :=
  List.replicate (width * height) 16 ++ List.replicate (width * height / 2) 128

/-- Models `frame_size = int(width * height * 1.5)`
(FastEncodePro.py:1216): `W*H + W*H//2 = ⌊3*W*H/2⌋`. -/
def frame_size_of (width height : ℕ) : ℕ :=
  3 * width * height / 2

/-- Embedding of the read/write loop of
`TimelineRenderingEngine._stream_segment_to_encoder`
(FastEncodePro.py:1240-1269) in the absence of cancellation and of
encoder-pipe failures: `decoded` is the sequence of chunks the decoder's
stdout yields, one per `read(frame_size)` call; an empty or short chunk
ends the loop.  Returns `(frames_read, chunks written to the encoder)`. -/
def stream_loop (frame_size : ℕ) : List (List ℕ) → ℕ → ℕ × List (List ℕ)
  | _, 0 => (0, [])
  | [], _ + 1 => (0, [])
  | raw :: rest, n + 1 =>
    if raw.length ≠ frame_size then (0, [])
    else
      let r := stream_loop frame_size rest n
      (r.1 + 1, raw :: r.2)

/-- Embedding of the clip-segment branch of the `render` segment loop
(FastEncodePro.py:1090-1112): stream the segment, then — under
`if not success or success < count` — pad `count - success` solid-black
frames and log a warning.  Returns the full list of frames the encoder's
stdin receives for this segment, paired with whether the early-end
warning was logged. -/
def pad_clip_segment (count : ℕ) (decoded : List (List ℕ)) (width height : ℕ) :
    List (List ℕ) × Bool :=
  let r := stream_loop (frame_size_of width height) decoded count
  let success := r.1
  if success = 0 ∨ success < count then
    let missing := count - success
    (r.2 ++ List.replicate missing (black_frame width height), true)
  else (r.2, false)

/-- The result of one `render()` call, together with the modelled
filesystem state at return time: whether the intermediate video stream
file (`temp_video`) and the intermediate audio stream file (`temp_audio`)
are still on disk, and whether any subprocess was ever spawned. -/
structure RenderResult where
  success : Bool
  message : String
  temp_video_on_disk : Bool
  temp_audio_on_disk : Bool
  spawned_subprocess : Bool
deriving DecidableEq, Repr

/-- Environment of external nondeterminism for one `render()` call:
results of `shutil.disk_usage` (in GiB; `none` models the call raising),
subprocess outcomes, and the first segment-loop iteration at which the
cooperative `should_stop` flag is observed set (`none`: never). -/
structure RenderEnv where
  timeline : Timeline
  timeline_fps : ℚ
  output_dir : String
  sys_temp_dir : String
  output_free_gb : Option ℚ
  temp_free_gb : Option ℚ
  encoder_starts : Bool
  raised_in_try : Option String
  cancel_from : Option ℕ
  pipe_ok : Bool
  encoder_timeout : Bool
  video_file_sane : Bool
  video_left_after_timeout : Bool
  encoder_returncode : ℤ
  audio_ok : Bool
  audio_file_created : Bool
  merge_cancel : Bool
  merge_returncode : ℤ

/-- Embedding of the scratch-directory choice (FastEncodePro.py:1008-1027):
use the output directory when `disk_usage` reports strictly more than
15 GB free, otherwise (including when `disk_usage` raises) fall back to
`tempfile.gettempdir()`. -/
def choose_temp_dir (output_dir sys_temp_dir : String)
    (output_free_gb : Option ℚ) : String :=
  match output_free_gb with
  | some free_gb => if free_gb > 15 then output_dir else sys_temp_dir
  | none => sys_temp_dir

/-- Embedding of the fallback free-space gate (FastEncodePro.py:1029-1038):
only when the chosen directory is `tempfile.gettempdir()` is its free
space checked, and `free_gb < 10` makes `render` fail fast (a raising
`disk_usage` is swallowed). -/
def fallback_insufficient (temp_dir sys_temp_dir : String)
    (temp_free_gb : Option ℚ) : Bool :=
  if temp_dir = sys_temp_dir then
    match temp_free_gb with
    | some free_gb => decide (free_gb < 10)
    | none => false
  else false

/-- The `should_stop` flag as observed at the segment-loop poll of
iteration `i` (FastEncodePro.py:1080): once set it stays set. -/
def should_stop_at (cancel_from : Option ℕ) (i : ℕ) : Bool :=
  match cancel_from with
  | none => false
  | some k => decide (k ≤ i)

/-- Embedding of the early-return structure of the segment loop of
`render` (FastEncodePro.py:1079-1113): at the top of each iteration a set
`should_stop` returns `"Cancelled"`; a broken encoder pipe while writing
a blank segment returns `"Encoder pipe broken (Disk full?)"`; a clip
segment never returns early (underruns and write errors are absorbed by
the padding logic of `pad_clip_segment`).  `none` means the loop ran to
completion. -/
def run_segments (cancel_from : Option ℕ) (pipe_ok : Bool) :
    List Segment → ℕ → Option String
  | [], _ => none
  | seg :: rest, i =>
    if should_stop_at cancel_from i then some "Cancelled"
    else if seg.kind = SegKind.blank ∧ pipe_ok = false then
      some "Encoder pipe broken (Disk full?)"
    else run_segments cancel_from pipe_ok rest (i + 1)

/-- Embedding of the control flow of `TimelineRenderingEngine.render`
(FastEncodePro.py:1002-1211) over a `RenderEnv`, tracking which
intermediate files are on disk at each return.  Messages carrying
formatted runtime numbers are modelled by their fixed prefix.  The
modelled unexpected exception (`raised_in_try`) is raised during the
streaming phase, after the encoder has started; the `except Exception`
handler removes both intermediates (FastEncodePro.py:1205-1210).  Every
other `return False` inside the `try` block performs no file removal,
except the audio-failure return, which removes `temp_video` only
(FastEncodePro.py:1140-1142). -/
def render (env : RenderEnv) : RenderResult :=
  let temp_dir := choose_temp_dir env.output_dir env.sys_temp_dir env.output_free_gb
  if fallback_insufficient temp_dir env.sys_temp_dir env.temp_free_gb then
    { success := false, message := "Insufficient disk space (need 10GB+)",
      temp_video_on_disk := false, temp_audio_on_disk := false,
      spawned_subprocess := false }
  else if env.timeline.clips = [] then
    { success := false, message := "No clips on timeline",
      temp_video_on_disk := false, temp_audio_on_disk := false,
      spawned_subprocess := false }
  else
    -- `get_video_metadata` spawns the first subprocess (ffprobe) here.
    let timeline_duration := get_timeline_duration env.timeline
    let timeline_fps := env.timeline_fps
    let total_frames := total_frames_of timeline_duration timeline_fps
    let segments := build_render_plan env.timeline total_frames timeline_fps
    if env.encoder_starts = false then
      { success := false, message := "Failed to start encoder",
        temp_video_on_disk := false, temp_audio_on_disk := false,
        spawned_subprocess := true }
    else
      -- The encoder ffmpeg process is live and has opened `temp_video`.
      match env.raised_in_try with
      | some msg =>
        { success := false, message := msg, temp_video_on_disk := false,
          temp_audio_on_disk := false, spawned_subprocess := true }
      | none =>
        match run_segments env.cancel_from env.pipe_ok segments 0 with
        | some msg =>
          { success := false, message := msg, temp_video_on_disk := true,
            temp_audio_on_disk := false, spawned_subprocess := true }
        | none =>
          if env.encoder_timeout ∧ env.video_file_sane = false then
            { success := false, message := "Encoder timeout - file not created",
              temp_video_on_disk := env.video_left_after_timeout,
              temp_audio_on_disk := false, spawned_subprocess := true }
          else if env.encoder_returncode ≠ 0 then
            { success := false, message := "Encoder failed",
              temp_video_on_disk := true, temp_audio_on_disk := false,
              spawned_subprocess := true }
          else if env.audio_ok = false then
            { success := false,
              message := "Audio rendering failed - check logs for details",
              temp_video_on_disk := false,
              temp_audio_on_disk := env.audio_file_created,
              spawned_subprocess := true }
          else if env.merge_cancel then
            { success := false, message := "Merge cancelled",
              temp_video_on_disk := true,
              temp_audio_on_disk := env.audio_file_created,
              spawned_subprocess := true }
          else if env.merge_returncode ≠ 0 then
            { success := false, message := "Merge failed",
              temp_video_on_disk := true,
              temp_audio_on_disk := env.audio_file_created,
              spawned_subprocess := true }
          else
            { success := true, message := "Render Complete!",
              temp_video_on_disk := false, temp_audio_on_disk := false,
              spawned_subprocess := true }

/-! ### Helper lemmas about the running maximum in `get_timeline_duration` -/

theorem foldl_max_init_le (l : List TimelineClip) (a : ℚ) :
    a ≤ l.foldl (fun m x => max m x.get_end_time) a := by
  induction l generalizing a with
  | nil => simp
  | cons x xs ih =>
    exact le_trans (le_max_left _ _) (ih (max a x.get_end_time))

theorem foldl_max_mem_le (l : List TimelineClip) (a : ℚ) :
    ∀ x ∈ l, x.get_end_time ≤ l.foldl (fun m x => max m x.get_end_time) a := by
  induction l generalizing a with
  | nil => intro x hx; simp at hx
  | cons y ys ih =>
    intro x hx
    rcases List.mem_cons.mp hx with h | h
    · subst h
      exact le_trans (le_max_right _ _) (foldl_max_init_le ys (max a x.get_end_time))
    · exact ih (max a y.get_end_time) x h

theorem foldl_max_eq_init_or_mem (l : List TimelineClip) (a : ℚ) :
    l.foldl (fun m x => max m x.get_end_time) a = a ∨
      ∃ x ∈ l, l.foldl (fun m x => max m x.get_end_time) a = x.get_end_time := by
  induction l generalizing a with
  | nil => left; rfl
  | cons y ys ih =>
    rcases ih (max a y.get_end_time) with h | ⟨x, hx, he⟩
    · rcases max_cases a y.get_end_time with ⟨hm, _⟩ | ⟨hm, _⟩
      · left; rw [List.foldl_cons, h, hm]
      · right; exact ⟨y, List.mem_cons_self _ _, by rw [List.foldl_cons, h, hm]⟩
    · right; exact ⟨x, List.mem_cons_of_mem _ hx, he⟩

/-- C8: `get_timeline_duration` returns the maximum over all clips of
`start_time + (out_point − in_point)` (i.e. of `get_end_time`), and `0`
for an empty timeline; consequently an empty timeline yields
`total_frames = 0` and `_build_render_plan` returns an empty plan. -/
theorem c8_timeline_duration (tl : Timeline) :
    (∀ c ∈ tl.clips, c.get_end_time ≤ get_timeline_duration tl) ∧
    (tl.clips ≠ [] → ∃ c ∈ tl.clips, get_timeline_duration tl = c.get_end_time) ∧
    (tl.clips = [] →
      get_timeline_duration tl = 0 ∧
      ∀ fps : ℚ,
        total_frames_of (get_timeline_duration tl) fps = 0 ∧
        build_render_plan tl (total_frames_of (get_timeline_duration tl) fps) fps = []) := by
  refine ⟨?_, ?_, ?_⟩
  · intro c hc
    unfold get_timeline_duration
    match htl : tl.clips, hc with
    | c0 :: rest, hc =>
      rcases List.mem_cons.mp hc with h | h
      · subst h; exact foldl_max_init_le rest c.get_end_time
      · exact foldl_max_mem_le rest c0.get_end_time c h
  · intro hne
    unfold get_timeline_duration
    match htl : tl.clips, hne with
    | c0 :: rest, _ =>
      rcases foldl_max_eq_init_or_mem rest c0.get_end_time with h | ⟨x, hx, he⟩
      · exact ⟨c0, List.mem_cons_self _ _, h⟩
      · exact ⟨x, List.mem_cons_of_mem _ hx, he⟩
  · intro hnil
    have hdur : get_timeline_duration tl = 0 := by
      unfold get_timeline_duration
      rw [hnil]
    refine ⟨hdur, fun fps => ?_⟩
    have htf : total_frames_of (get_timeline_duration tl) fps = 0 := by
      rw [hdur]
      unfold total_frames_of
      norm_num
    exact ⟨htf, by rw [htf]; unfold build_render_plan; simp⟩

/-- Closed instance of `c8_timeline_duration`: on a concrete one-clip
timeline the duration is attained by a clip of the timeline. -/
theorem c8_timeline_duration_witness :
    ∃ c ∈ (Timeline.mk [TimelineClip.init "w8.mp4" 0 2 0 (some 3) 6]).clips,
      get_timeline_duration (Timeline.mk [TimelineClip.init "w8.mp4" 0 2 0 (some 3) 6]) =
        c.get_end_time :=
  (c8_timeline_duration (Timeline.mk [TimelineClip.init "w8.mp4" 0 2 0 (some 3) 6])).2.1
    (by decide)

/-- C9: the constructor stores `file_path`, `track`, `start_time`,
`in_point` and the supplied duration unchanged, and stores `out_point`
as the clip's full duration exactly when the supplied `out_point` is
`None`, not greater than `0`, or not greater than `in_point`; otherwise
the supplied `out_point` is stored unchanged. -/
theorem c9_init_normalises_out_point (file_path : String) (track : ℤ)
    (start_time in_point : ℚ) (out_point : Option ℚ) (duration : ℚ) :
    (TimelineClip.init file_path track start_time in_point out_point duration).file_path
        = file_path ∧
    (TimelineClip.init file_path track start_time in_point out_point duration).track
        = track ∧
    (TimelineClip.init file_path track start_time in_point out_point duration).start_time
        = start_time ∧
    (TimelineClip.init file_path track start_time in_point out_point duration).in_point
        = in_point ∧
    (TimelineClip.init file_path track start_time in_point out_point duration).full_duration
        = duration ∧
    (TimelineClip.init file_path track start_time in_point out_point duration).out_point
        = (match out_point with
           | none => duration
           | some op => if op ≤ 0 ∨ op ≤ in_point then duration else op) := by
  refine ⟨rfl, rfl, rfl, rfl, rfl, ?_⟩
  unfold TimelineClip.init
  cases out_point with
  | none => simp
  | some op =>
    by_cases h1 : op ≤ 0
    · simp [h1]
    · by_cases h2 : op ≤ in_point <;> simp [h1, h2]

/-- C10: `timeline_time_to_clip_time` returns `none` exactly outside the
closed interval `[start_time, start_time + (out_point − in_point)]`, and
inside it (end point included) returns `in_point + (t − start_time)`. -/
theorem c10_time_conversion (c : TimelineClip) (t : ℚ) :
    (c.timeline_time_to_clip_time t = none ↔
      t < c.start_time ∨ t > c.start_time + (c.out_point - c.in_point)) ∧
    (c.start_time ≤ t → t ≤ c.start_time + (c.out_point - c.in_point) →
      c.timeline_time_to_clip_time t = some (c.in_point + (t - c.start_time))) := by
  unfold TimelineClip.timeline_time_to_clip_time TimelineClip.get_end_time
    TimelineClip.get_trimmed_duration
  constructor
  · by_cases h : t < c.start_time ∨ t > c.start_time + (c.out_point - c.in_point)
    · simp only [h, if_pos, iff_true]
    · simp only [h, if_neg, not_false_iff, iff_false]
      simp [h]
  · intro h1 h2
    have h : ¬ (t < c.start_time ∨ t > c.start_time + (c.out_point - c.in_point)) := by
      push_neg
      exact ⟨h1, h2⟩
    simp [h]

/-- Closed instance of `c10_time_conversion` at the exact end time of a
concrete clip: the conversion still succeeds there. -/
theorem c10_time_conversion_witness :
    (TimelineClip.init "w10.mp4" 0 1 2 (some 6) 9).timeline_time_to_clip_time 5 =
      some ((TimelineClip.init "w10.mp4" 0 1 2 (some 6) 9).in_point +
        (5 - (TimelineClip.init "w10.mp4" 0 1 2 (some 6) 9).start_time)) :=
  (c10_time_conversion (TimelineClip.init "w10.mp4" 0 1 2 (some 6) 9) 5).2
    (by norm_num [TimelineClip.init]) (by norm_num [TimelineClip.init])

/-- C6: for a clip satisfying the invariant `0 ≤ in_point < out_point`,
`from_dict (to_dict c)` reconstructs the clip's `file_path`, `track`,
`start_time`, `in_point`, `out_point` and `full_duration` exactly (hence
in particular within any floating-point tolerance). -/
theorem c6_dict_roundtrip (c : TimelineClip) (h0 : 0 ≤ c.in_point)
    (h1 : c.in_point < c.out_point) :
    (TimelineClip.from_dict c.to_dict).file_path = c.file_path ∧
    (TimelineClip.from_dict c.to_dict).track = c.track ∧
    (TimelineClip.from_dict c.to_dict).start_time = c.start_time ∧
    (TimelineClip.from_dict c.to_dict).in_point = c.in_point ∧
    (TimelineClip.from_dict c.to_dict).out_point = c.out_point ∧
    (TimelineClip.from_dict c.to_dict).full_duration = c.full_duration := by
  have hop : ¬ (c.out_point ≤ 0) := by push_neg; linarith
  have hip : ¬ (c.out_point ≤ c.in_point) := not_le.mpr h1
  unfold TimelineClip.from_dict TimelineClip.to_dict TimelineClip.init
  simp [hop, hip]

/-- Closed instance of `c6_dict_roundtrip` on a concrete clip. -/
theorem c6_dict_roundtrip_witness :
    (TimelineClip.from_dict (TimelineClip.init "w6.mp4" 1 3 1 (some 4) 9).to_dict).out_point
      = (TimelineClip.init "w6.mp4" 1 3 1 (some 4) 9).out_point :=
  (c6_dict_roundtrip (TimelineClip.init "w6.mp4" 1 3 1 (some 4) 9)
    (by decide) (by decide)).2.2.2.2.1

/-! ### Specification lemmas for `first_highest_track` -/

theorem first_highest_track_eq_none_iff (l : List TimelineClip) :
    first_highest_track l = none ↔ l = [] := by
  cases l with
  | nil => simp [first_highest_track]
  | cons c rest =>
    simp only [first_highest_track]
    cases h : first_highest_track rest with
    | none => simp
    | some b =>
      by_cases hb : b.track > c.track <;> simp [hb]

theorem first_highest_track_mem (l : List TimelineClip) (c : TimelineClip)
    (h : first_highest_track l = some c) : c ∈ l := by
  induction l with
  | nil => simp [first_highest_track] at h
  | cons x rest ih =>
    cases hr : first_highest_track rest with
    | none =>
      simp only [first_highest_track, hr, Option.some.injEq] at h
      subst h
      exact List.mem_cons_self _ _
    | some b =>
      simp only [first_highest_track, hr] at h
      by_cases hb : b.track > x.track
      · simp only [if_pos hb, Option.some.injEq] at h
        subst h
        exact List.mem_cons_of_mem _ (ih hr)
      · simp only [if_neg hb, Option.some.injEq] at h
        subst h
        exact List.mem_cons_self _ _

theorem first_highest_track_max (l : List TimelineClip) :
    ∀ c, first_highest_track l = some c → ∀ b ∈ l, b.track ≤ c.track := by
  induction l with
  | nil => intro c h b hb; simp at hb
  | cons x rest ih =>
    intro c h b hb
    cases hr : first_highest_track rest with
    | none =>
      simp only [first_highest_track, hr, Option.some.injEq] at h
      subst h
      have : rest = [] := (first_highest_track_eq_none_iff rest).mp hr
      subst this
      simp at hb
      subst hb
      exact le_refl _
    | some bb =>
      simp only [first_highest_track, hr] at h
      rcases List.mem_cons.mp hb with hbx | hbr
      · subst hbx
        by_cases hcmp : bb.track > b.track
        · simp only [if_pos hcmp, Option.some.injEq] at h
          subst h
          exact le_of_lt hcmp
        · simp only [if_neg hcmp, Option.some.injEq] at h
          subst h
          exact le_refl _
      · by_cases hcmp : bb.track > x.track
        · simp only [if_pos hcmp, Option.some.injEq] at h
          subst h
          exact ih bb hr b hbr
        · simp only [if_neg hcmp, Option.some.injEq] at h
          subst h
          exact le_trans (ih bb hr b hbr) (not_lt.mp hcmp)

/-- C2: whenever at least one clip is active at `t` (`start_time ≤ t <`
end time), `get_clip_at_timeline_time` returns an active clip of the
timeline whose track index is maximal among all clips active at `t`;
with no active clip it returns `none`. -/
theorem c2_highest_track_wins (tl : Timeline) (t : ℚ) :
    ((∃ c ∈ tl.clips, c.start_time ≤ t ∧ t < c.get_end_time) →
      ∃ r ∈ tl.clips, get_clip_at_timeline_time tl t = some r ∧
        r.start_time ≤ t ∧ t < r.get_end_time ∧
        ∀ c ∈ tl.clips, c.start_time ≤ t ∧ t < c.get_end_time → c.track ≤ r.track) ∧
    ((∀ c ∈ tl.clips, ¬ (c.start_time ≤ t ∧ t < c.get_end_time)) →
      get_clip_at_timeline_time tl t = none) := by
  constructor
  · rintro ⟨c, hc, hact⟩
    have hmemc : c ∈ tl.clips.filter fun x =>
        decide (x.start_time ≤ t ∧ t < x.get_end_time) :=
      List.mem_filter.mpr ⟨hc, by simpa using hact⟩
    have hne : tl.clips.filter (fun x =>
        decide (x.start_time ≤ t ∧ t < x.get_end_time)) ≠ [] :=
      List.ne_nil_of_mem hmemc
    cases hr : first_highest_track (tl.clips.filter fun x =>
        decide (x.start_time ≤ t ∧ t < x.get_end_time)) with
    | none => exact absurd ((first_highest_track_eq_none_iff _).mp hr) hne
    | some r =>
      have hrmem := first_highest_track_mem _ _ hr
      have hrfil := List.mem_filter.mp hrmem
      have hract : r.start_time ≤ t ∧ t < r.get_end_time := by
        simpa using hrfil.2
      refine ⟨r, hrfil.1, ?_, hract.1, hract.2, ?_⟩
      · unfold get_clip_at_timeline_time
        exact hr
      · intro c' hc' hact'
        exact first_highest_track_max _ _ hr c'
          (List.mem_filter.mpr ⟨hc', by simpa using hact'⟩)
  · intro h
    unfold get_clip_at_timeline_time
    have : tl.clips.filter (fun x =>
        decide (x.start_time ≤ t ∧ t < x.get_end_time)) = [] := by
      rw [List.filter_eq_nil_iff]
      intro a ha
      simpa using h a ha
    rw [this]
    rfl

/-- Closed instance of `c2_highest_track_wins`: with two overlapping
concrete clips on tracks 0 and 1, the track-1 clip is selected. -/
theorem c2_highest_track_wins_witness :
    ∃ r ∈ (Timeline.mk [TimelineClip.init "low.mp4" 0 0 0 (some 4) 8,
        TimelineClip.init "high.mp4" 1 0 0 (some 4) 8]).clips,
      get_clip_at_timeline_time (Timeline.mk [TimelineClip.init "low.mp4" 0 0 0 (some 4) 8,
        TimelineClip.init "high.mp4" 1 0 0 (some 4) 8]) 1 = some r ∧
      r.start_time ≤ 1 ∧ 1 < r.get_end_time ∧
      ∀ c ∈ (Timeline.mk [TimelineClip.init "low.mp4" 0 0 0 (some 4) 8,
          TimelineClip.init "high.mp4" 1 0 0 (some 4) 8]).clips,
        c.start_time ≤ 1 ∧ 1 < c.get_end_time → c.track ≤ r.track :=
  (c2_highest_track_wins (Timeline.mk [TimelineClip.init "low.mp4" 0 0 0 (some 4) 8,
      TimelineClip.init "high.mp4" 1 0 0 (some 4) 8]) 1).1
    ⟨TimelineClip.init "low.mp4" 0 0 0 (some 4) 8, by simp,
      by norm_num [TimelineClip.init, TimelineClip.get_end_time,
        TimelineClip.get_trimmed_duration]⟩

/-! ### The tiling predicate for render plans -/

/-- `tiles_interval segs lo hi` says the segments exactly tile the frame
interval `[lo, hi)`: the first starts at `lo`, each next starts where the
previous ended, every count is positive, and the last ends at `hi`.  This
packages "ordered by start_frame, no gaps, no overlaps". -/
def tiles_interval : List Segment → ℕ → ℕ → Prop
  | [], lo, hi => lo = hi
  | s :: rest, lo, hi =>
    s.start_frame = lo ∧ 0 < s.count ∧ tiles_interval rest (lo + s.count) hi

instance tiles_interval_decidable :
    (l : List Segment) → (lo hi : ℕ) → Decidable (tiles_interval l lo hi)
  | [], _, _ => by unfold tiles_interval; infer_instance
  | s :: rest, lo, hi => by
    unfold tiles_interval
    have := tiles_interval_decidable rest (lo + s.count) hi
    infer_instance

theorem tiles_interval_append_one (l : List Segment) (lo hi : ℕ) (s : Segment)
    (h : tiles_interval l lo hi) (hs : s.start_frame = hi) (hc : 0 < s.count) :
    tiles_interval (l ++ [s]) lo (hi + s.count) := by
  induction l generalizing lo with
  | nil =>
    unfold tiles_interval at h
    subst h
    exact ⟨hs, hc, rfl⟩
  | cons x rest ih =>
    obtain ⟨hx, hxc, hrest⟩ := h
    exact ⟨hx, hxc, ih (lo + x.count) hrest⟩

theorem tiles_interval_sum (l : List Segment) (lo hi : ℕ)
    (h : tiles_interval l lo hi) :
    lo + (l.map (fun s => s.count)).sum = hi := by
  induction l generalizing lo with
  | nil =>
    unfold tiles_interval at h
    simpa using h
  | cons x rest ih =>
    obtain ⟨_, _, hrest⟩ := h
    have := ih (lo + x.count) hrest
    simp only [List.map_cons, List.sum_cons]
    omega

theorem tiles_interval_head_start (l : List Segment) (lo hi : ℕ)
    (h : tiles_interval l lo hi) :
    ∀ s₀, l.head? = some s₀ → s₀.start_frame = lo := by
  intro s₀ hh
  cases l with
  | nil => simp at hh
  | cons x rest =>
    simp at hh
    subst hh
    exact h.1

/-! ### The loop invariant of `_build_render_plan` -/

/-- Invariant of the `_build_render_plan` loop state after processing
frames `0, …, i-1`: the flushed segments tile `[0, segment_start_frame)`,
the open segment accounts for the remaining frames up to `i`, and the
open segment is nonempty as soon as any frame has been processed. -/
def plan_inv (s : PlanState) (i : ℕ) : Prop :=
  tiles_interval s.segments 0 s.segment_start_frame ∧
  s.segment_start_frame + s.frames_in_segment = i ∧
  (0 < i → 0 < s.frames_in_segment)

theorem flush_segment_tiles (timeline_fps : ℚ) (s : PlanState)
    (h : tiles_interval s.segments 0 s.segment_start_frame) :
    tiles_interval (flush_segment timeline_fps s) 0
      (s.segment_start_frame + s.frames_in_segment) := by
  unfold flush_segment
  by_cases hf : 0 < s.frames_in_segment
  · rw [if_pos hf]
    exact tiles_interval_append_one _ _ _ _ h rfl hf
  · rw [if_neg hf]
    have : s.frames_in_segment = 0 := by omega
    rw [this, Nat.add_zero]
    exact h

theorem plan_step_changed (tl : Timeline) (timeline_fps : ℚ) (s : PlanState) (i : ℕ)
    (hv : get_clip_at_timeline_time tl ((i : ℚ) / timeline_fps) ≠ s.current_clip) :
    plan_step tl timeline_fps s i =
      { segments := flush_segment timeline_fps s,
        current_clip := get_clip_at_timeline_time tl ((i : ℚ) / timeline_fps),
        segment_start_frame := i, frames_in_segment := 1 } := by
  simp [plan_step, hv]

theorem plan_step_same (tl : Timeline) (timeline_fps : ℚ) (s : PlanState) (i : ℕ)
    (hv : get_clip_at_timeline_time tl ((i : ℚ) / timeline_fps) = s.current_clip) :
    plan_step tl timeline_fps s i =
      { s with frames_in_segment := s.frames_in_segment + 1 } := by
  simp [plan_step, hv]

theorem plan_step_inv (tl : Timeline) (timeline_fps : ℚ) (s : PlanState) (i : ℕ)
    (h : plan_inv s i) : plan_inv (plan_step tl timeline_fps s i) (i + 1) := by
  obtain ⟨ht, hsum, hpos⟩ := h
  by_cases hv : get_clip_at_timeline_time tl ((i : ℚ) / timeline_fps) = s.current_clip
  · rw [plan_step_same tl timeline_fps s i hv]
    exact ⟨ht, by simp; omega, fun _ => by simp⟩
  · rw [plan_step_changed tl timeline_fps s i hv]
    refine ⟨?_, by simp, fun _ => by simp⟩
    have := flush_segment_tiles timeline_fps s ht
    rwa [hsum] at this

theorem plan_fold_inv (tl : Timeline) (timeline_fps : ℚ) (n : ℕ) :
    plan_inv ((List.range n).foldl (plan_step tl timeline_fps)
      { segments := [], current_clip := none,
        segment_start_frame := 0, frames_in_segment := 0 }) n := by
  induction n with
  | zero =>
    refine ⟨?_, rfl, fun h => absurd h (by omega)⟩
    unfold tiles_interval
    rfl
  | succ n ih =>
    rw [List.range_succ, List.foldl_append, List.foldl_cons, List.foldl_nil]
    exact plan_step_inv tl timeline_fps _ n ih

theorem build_render_plan_tiles (tl : Timeline) (timeline_fps : ℚ)
    (total_frames : ℕ) :
    tiles_interval (build_render_plan tl total_frames timeline_fps) 0 total_frames := by
  unfold build_render_plan
  by_cases h0 : total_frames = 0
  · rw [if_pos h0]
    unfold tiles_interval
    omega
  · rw [if_neg h0]
    obtain ⟨ht, hsum, _⟩ := plan_fold_inv tl timeline_fps total_frames
    have := flush_segment_tiles timeline_fps _ ht
    rwa [hsum] at this

theorem build_render_plan_ne_nil (tl : Timeline) (timeline_fps : ℚ)
    (total_frames : ℕ) (hn : total_frames ≠ 0) :
    build_render_plan tl total_frames timeline_fps ≠ [] := by
  intro h
  have := build_render_plan_tiles tl timeline_fps total_frames
  rw [h] at this
  unfold tiles_interval at this
  exact hn this.symm

/-- C1: for every timeline, every positive fps and every frame count, the
plan returned by `_build_render_plan` exactly tiles `[0, total_frames)`:
the first segment starts at frame 0, each segment starts where the
previous one ended with a positive count (no gaps, no overlaps, ordered),
and the counts sum to `total_frames`. -/
theorem c1_plan_tiles (tl : Timeline) (timeline_fps : ℚ) (total_frames : ℕ)
    (hfps : 0 < timeline_fps) :
    tiles_interval (build_render_plan tl total_frames timeline_fps) 0 total_frames ∧
    ((build_render_plan tl total_frames timeline_fps).map (fun s => s.count)).sum
      = total_frames ∧
    (∀ s₀, (build_render_plan tl total_frames timeline_fps).head? = some s₀ →
      s₀.start_frame = 0) := by
  have key := build_render_plan_tiles tl timeline_fps total_frames
  refine ⟨key, ?_, ?_⟩
  · have := tiles_interval_sum _ _ _ key
    omega
  · exact tiles_interval_head_start _ _ _ key

/-- Closed instance of `c1_plan_tiles` on a concrete empty timeline with
5 frames at 30 fps (the plan is a single 5-frame blank segment). -/
theorem c1_plan_tiles_witness :
    tiles_interval (build_render_plan (Timeline.mk []) 5 30) 0 5 ∧
    ((build_render_plan (Timeline.mk []) 5 30).map (fun s => s.count)).sum = 5 ∧
    (∀ s₀, (build_render_plan (Timeline.mk []) 5 30).head? = some s₀ →
      s₀.start_frame = 0) :=
  c1_plan_tiles (Timeline.mk []) 30 5 (by norm_num)

/-! ### The decode/pad loop -/

theorem stream_loop_all_full (frame_size : ℕ) (decoded : List (List ℕ)) (n : ℕ)
    (hsize : ∀ f ∈ decoded, f.length = frame_size) (hlen : decoded.length ≤ n) :
    stream_loop frame_size decoded n = (decoded.length, decoded) := by
  induction decoded generalizing n with
  | nil =>
    cases n with
    | zero => rfl
    | succ n => rfl
  | cons raw rest ih =>
    cases n with
    | zero => simp at hlen
    | succ n =>
      have hraw : raw.length = frame_size := hsize raw (List.mem_cons_self _ _)
      have hrest : ∀ f ∈ rest, f.length = frame_size :=
        fun f hf => hsize f (List.mem_cons_of_mem _ hf)
      have hlen' : rest.length ≤ n := by simpa using hlen
      simp only [stream_loop, hraw, ne_eq, not_true_eq_false, if_false]
      rw [ih n hrest hlen']
      simp

/-- C3: when the per-segment decode delivers `k` fewer full frames than
the segment's planned `count`, the clip-segment handler forwards the
decoded frames and then writes exactly `k` additional solid-black
YUV420p frames (every luma byte 16, every chroma byte 128), so the
encoder receives exactly `count` frames, and the early-end warning is
logged. -/
theorem c3_underrun_padded (width height count k : ℕ) (decoded : List (List ℕ))
    (hsize : ∀ f ∈ decoded, f.length = frame_size_of width height)
    (hlen : decoded.length + k = count) (hk : 0 < k) :
    (pad_clip_segment count decoded width height).1 =
      decoded ++ List.replicate k
        (List.replicate (width * height) 16 ++
         List.replicate (width * height / 2) 128) ∧
    (pad_clip_segment count decoded width height).1.length = count ∧
    (pad_clip_segment count decoded width height).2 = true := by
  have hle : decoded.length ≤ count := by omega
  have hs := stream_loop_all_full (frame_size_of width height) decoded count hsize hle
  have hcond : decoded.length = 0 ∨ decoded.length < count := by omega
  have hmiss : count - decoded.length = k := by omega
  unfold pad_clip_segment black_frame
  simp only [hs]
  rw [if_pos hcond, hmiss]
  refine ⟨rfl, ?_, rfl⟩
  simp only [List.length_append, List.length_replicate]
  omega

/-- Closed instance of `c3_underrun_padded`: a 3-frame 2×2 segment whose
decode delivers only 2 full frames is padded with exactly one black
frame. -/
theorem c3_underrun_padded_witness :
    (pad_clip_segment 3 [List.replicate 6 9, List.replicate 6 9] 2 2).1 =
      [List.replicate 6 9, List.replicate 6 9] ++ List.replicate 1
        (List.replicate (2 * 2) 16 ++ List.replicate (2 * 2 / 2) 128) ∧
    (pad_clip_segment 3 [List.replicate 6 9, List.replicate 6 9] 2 2).1.length = 3 ∧
    (pad_clip_segment 3 [List.replicate 6 9, List.replicate 6 9] 2 2).2 = true :=
  c3_underrun_padded 2 2 3 1 [List.replicate 6 9, List.replicate 6 9]
    (by decide) (by decide) (by decide)

/-! ### Failure-path and scratch-directory properties of `render` -/

theorem run_segments_cancel_head (cancel_from : Option ℕ) (pipe_ok : Bool)
    (s : Segment) (rest : List Segment)
    (h : should_stop_at cancel_from 0 = true) :
    run_segments cancel_from pipe_ok (s :: rest) 0 = some "Cancelled" := by
  unfold run_segments
  rw [h]
  rfl

/-- A concrete environment in which `should_stop` is observed at the very
first segment poll of a one-clip, one-frame render. -/
def env_c4 : RenderEnv :=
  { timeline := Timeline.mk [TimelineClip.init "c.mp4" 0 0 0 (some 1) 1],
    timeline_fps := 1, output_dir := "/out", sys_temp_dir := "/tmp",
    output_free_gb := some 100, temp_free_gb := some 100,
    encoder_starts := true, raised_in_try := none, cancel_from := some 0,
    pipe_ok := true, encoder_timeout := false, video_file_sane := true,
    video_left_after_timeout := false, encoder_returncode := 0,
    audio_ok := true, audio_file_created := true, merge_cancel := false,
    merge_returncode := 0 }

/-- C4 fails on the code: cancelling at the first segment poll returns
`success = False` with message `"Cancelled"`, yet the intermediate video
stream file (already opened by the running encoder) is still on disk —
none of the explicit early `return False` statements inside the `try`
block removes it. -/
theorem c4_counterexample :
    (render env_c4).success = false ∧ (render env_c4).message = "Cancelled" ∧
    (render env_c4).temp_video_on_disk = true := by
  have htf : total_frames_of (get_timeline_duration env_c4.timeline)
      env_c4.timeline_fps = 1 := by
    show total_frames_of
      (get_timeline_duration (Timeline.mk [TimelineClip.init "c.mp4" 0 0 0 (some 1) 1])) 1 = 1
    norm_num [get_timeline_duration, TimelineClip.get_end_time,
      TimelineClip.get_trimmed_duration, TimelineClip.init, total_frames_of]
  obtain ⟨s, rest, hseg⟩ := List.exists_cons_of_ne_nil
    (build_render_plan_ne_nil env_c4.timeline env_c4.timeline_fps
      (total_frames_of (get_timeline_duration env_c4.timeline) env_c4.timeline_fps)
      (by rw [htf]; omega))
  have hrun : run_segments env_c4.cancel_from env_c4.pipe_ok
      (build_render_plan env_c4.timeline
        (total_frames_of (get_timeline_duration env_c4.timeline) env_c4.timeline_fps)
        env_c4.timeline_fps) 0 = some "Cancelled" := by
    rw [hseg]
    exact run_segments_cancel_head _ _ _ _ rfl
  have hfb : fallback_insufficient
      (choose_temp_dir env_c4.output_dir env_c4.sys_temp_dir env_c4.output_free_gb)
      env_c4.sys_temp_dir env_c4.temp_free_gb = false := by
    have h1 : choose_temp_dir env_c4.output_dir env_c4.sys_temp_dir
        env_c4.output_free_gb = "/out" := by
      show (if (100 : ℚ) > 15 then "/out" else "/tmp") = "/out"
      rw [if_pos (by norm_num)]
    rw [h1]
    show (if ("/out" : String) = "/tmp" then decide ((100 : ℚ) < 10) else false) = false
    rw [if_neg (by decide)]
  have hclips : ¬ env_c4.timeline.clips = [] := by decide
  have hrender : render env_c4 =
      { success := false, message := "Cancelled", temp_video_on_disk := true,
        temp_audio_on_disk := false, spawned_subprocess := true } := by
    simp only [render, hfb, Bool.false_eq_true, if_false, hclips, hrun]
    rfl
  rw [hrender]
  exact ⟨rfl, rfl, rfl⟩

/-- C4 amended: failures routed through the `except Exception` handler do
remove both intermediate files, but cancellation observed at a segment
poll returns `(False, "Cancelled")` with the intermediate video stream
file still on disk (the audio file has not yet been created at that
point). -/
theorem c4_cleanup_amended (env : RenderEnv)
    (hscr : fallback_insufficient
      (choose_temp_dir env.output_dir env.sys_temp_dir env.output_free_gb)
      env.sys_temp_dir env.temp_free_gb = false)
    (hclips : ¬ env.timeline.clips = [])
    (henc : env.encoder_starts = true) :
    (∀ msg, env.raised_in_try = some msg →
      render env =
        { success := false, message := msg, temp_video_on_disk := false,
          temp_audio_on_disk := false, spawned_subprocess := true }) ∧
    (env.raised_in_try = none →
      run_segments env.cancel_from env.pipe_ok
        (build_render_plan env.timeline
          (total_frames_of (get_timeline_duration env.timeline) env.timeline_fps)
          env.timeline_fps) 0 = some "Cancelled" →
      render env =
        { success := false, message := "Cancelled",
          temp_video_on_disk := true, temp_audio_on_disk := false,
          spawned_subprocess := true }) := by
  constructor
  · intro msg hmsg
    simp only [render, hscr, Bool.false_eq_true, if_false, hclips, hmsg, henc]
    simp
  · intro hnone hcan
    simp only [render, hscr, Bool.false_eq_true, if_false, hclips, hnone, hcan, henc]
    simp

/-- Closed instance of `c4_cleanup_amended` on `env_c4`. -/
theorem c4_cleanup_amended_witness :
    render env_c4 =
      { success := false, message := "Cancelled",
        temp_video_on_disk := true, temp_audio_on_disk := false,
        spawned_subprocess := true } := by
  have htf : total_frames_of (get_timeline_duration env_c4.timeline)
      env_c4.timeline_fps = 1 := by
    show total_frames_of
      (get_timeline_duration (Timeline.mk [TimelineClip.init "c.mp4" 0 0 0 (some 1) 1])) 1 = 1
    norm_num [get_timeline_duration, TimelineClip.get_end_time,
      TimelineClip.get_trimmed_duration, TimelineClip.init, total_frames_of]
  obtain ⟨s, rest, hseg⟩ := List.exists_cons_of_ne_nil
    (build_render_plan_ne_nil env_c4.timeline env_c4.timeline_fps
      (total_frames_of (get_timeline_duration env_c4.timeline) env_c4.timeline_fps)
      (by rw [htf]; omega))
  refine (c4_cleanup_amended env_c4 ?_ (by decide) (by decide)).2 rfl ?_
  · have h1 : choose_temp_dir env_c4.output_dir env_c4.sys_temp_dir
        env_c4.output_free_gb = "/out" := by
      show (if (100 : ℚ) > 15 then "/out" else "/tmp") = "/out"
      rw [if_pos (by norm_num)]
    rw [h1]
    show (if ("/out" : String) = "/tmp" then decide ((100 : ℚ) < 10) else false) = false
    rw [if_neg (by decide)]
  · rw [hseg]
    exact run_segments_cancel_head _ _ _ _ rfl

/-- C5 fails on the code at the boundary: when the output directory
reports exactly 15 GB free, the claim requires it to be selected
(`free ≥ 15`), but the code's test is strict (`free_gb > 15`) and falls
back to the platform temp directory. -/
theorem c5_counterexample :
    ¬ ((choose_temp_dir "/out" "/tmp" (some 15) = "/out") ↔ (15 : ℚ) ≥ 15) := by
  decide

/-- C5 amended: the output directory is selected exactly when its
reported free space is strictly greater than 15 GB; otherwise the
platform temp directory is selected, and when the fallback reports less
than 10 GB free, `render` returns the explicit insufficient-space
failure without having spawned any subprocess. -/
theorem c5_scratch_amended (env : RenderEnv)
    (hdir : env.output_dir ≠ env.sys_temp_dir) :
    (∀ free_gb : ℚ, env.output_free_gb = some free_gb →
      (choose_temp_dir env.output_dir env.sys_temp_dir env.output_free_gb
          = env.output_dir ↔ 15 < free_gb)) ∧
    (∀ free_gb : ℚ,
      choose_temp_dir env.output_dir env.sys_temp_dir env.output_free_gb
        = env.sys_temp_dir →
      env.temp_free_gb = some free_gb → free_gb < 10 →
      render env =
        { success := false, message := "Insufficient disk space (need 10GB+)",
          temp_video_on_disk := false, temp_audio_on_disk := false,
          spawned_subprocess := false }) := by
  constructor
  · intro free_gb hfree
    rw [hfree]
    show (if free_gb > 15 then env.output_dir else env.sys_temp_dir)
        = env.output_dir ↔ 15 < free_gb
    by_cases hf : free_gb > 15
    · rw [if_pos hf]
      simp [hf]
    · rw [if_neg hf]
      constructor
      · intro h
        exact absurd h.symm hdir
      · intro h
        exact absurd h hf
  · intro free_gb hchoose htempf hlt
    have hfb : fallback_insufficient
        (choose_temp_dir env.output_dir env.sys_temp_dir env.output_free_gb)
        env.sys_temp_dir env.temp_free_gb = true := by
      rw [hchoose]
      unfold fallback_insufficient
      rw [if_pos rfl, htempf]
      exact decide_eq_true hlt
    simp only [render, hfb]
    rfl

/-- A concrete environment whose output directory reports 5 GB free and
whose temp fallback reports 3 GB free. -/
def env_c5 : RenderEnv :=
  { timeline := Timeline.mk [TimelineClip.init "c.mp4" 0 0 0 (some 1) 1],
    timeline_fps := 1, output_dir := "/out", sys_temp_dir := "/tmp",
    output_free_gb := some 5, temp_free_gb := some 3,
    encoder_starts := true, raised_in_try := none, cancel_from := none,
    pipe_ok := true, encoder_timeout := false, video_file_sane := true,
    video_left_after_timeout := false, encoder_returncode := 0,
    audio_ok := true, audio_file_created := true, merge_cancel := false,
    merge_returncode := 0 }

/-- Closed instance of `c5_scratch_amended` on `env_c5`: the fallback is
low on space, so `render` fails fast with no subprocess spawned. -/
theorem c5_scratch_amended_witness :
    render env_c5 =
      { success := false, message := "Insufficient disk space (need 10GB+)",
        temp_video_on_disk := false, temp_audio_on_disk := false,
        spawned_subprocess := false } :=
  (c5_scratch_amended env_c5 (by decide)).2 3
    (by
      show (if (5 : ℚ) > 15 then "/out" else "/tmp") = "/tmp"
      rw [if_neg (by norm_num)])
    rfl (by norm_num)

/-! ### The worked two-clip example (spec §8) -/

/-- Clip A of the spec's example: track 0, start 0, in 2, out 7. -/
def clip_a : TimelineClip := TimelineClip.init "ClipA.mp4" 0 0 2 (some 7) 10

/-- Clip B of the spec's example: track 0, start 5, in 0, out 3. -/
def clip_b : TimelineClip := TimelineClip.init "ClipB.mp4" 0 5 0 (some 3) 10

/-- The spec's example timeline holding clips A and B. -/
def timeline_c7 : Timeline := Timeline.mk [clip_a, clip_b]

theorem clip_a_end : clip_a.get_end_time = 5 := by
  norm_num [clip_a, TimelineClip.init, TimelineClip.get_end_time,
    TimelineClip.get_trimmed_duration]

theorem clip_b_end : clip_b.get_end_time = 8 := by
  norm_num [clip_b, TimelineClip.init, TimelineClip.get_end_time,
    TimelineClip.get_trimmed_duration]

theorem clip_b_ne_clip_a : clip_b ≠ clip_a := by
  intro h
  have hst : clip_b.start_time = clip_a.start_time := congrArg TimelineClip.start_time h
  norm_num [clip_a, clip_b, TimelineClip.init] at hst

/-- Which clip `get_clip_at_timeline_time` sees at each of the example's
240 frame instants: clip A on frames 0–149, clip B on frames 150–239. -/
theorem c7_active (i : ℕ) (hi : i < 240) :
    get_clip_at_timeline_time timeline_c7 ((i : ℚ) / 30) =
      if i < 150 then some clip_a else some clip_b := by
  have h30 : (0 : ℚ) < 30 := by norm_num
  have hnn : (0 : ℚ) ≤ (i : ℚ) / 30 := div_nonneg (Nat.cast_nonneg i) (le_of_lt h30)
  by_cases hlt : i < 150
  · have hA : clip_a.start_time ≤ (i : ℚ) / 30 ∧ (i : ℚ) / 30 < clip_a.get_end_time := by
      constructor
      · show (0 : ℚ) ≤ (i : ℚ) / 30
        exact hnn
      · rw [clip_a_end, div_lt_iff₀ h30]
        have hc : (i : ℚ) < 150 := by exact_mod_cast hlt
        linarith
    have hB : ¬ (clip_b.start_time ≤ (i : ℚ) / 30 ∧ (i : ℚ) / 30 < clip_b.get_end_time) := by
      rintro ⟨h5, _⟩
      have h5' : (5 : ℚ) ≤ (i : ℚ) / 30 := h5
      rw [le_div_iff₀ h30] at h5'
      have hc : (i : ℚ) < 150 := by exact_mod_cast hlt
      linarith
    have hdA := decide_eq_true hA
    have hdB := decide_eq_false hB
    rw [if_pos hlt]
    show first_highest_track
      (List.filter
        (fun c => decide (c.start_time ≤ (i : ℚ) / 30 ∧ (i : ℚ) / 30 < c.get_end_time))
        [clip_a, clip_b]) = some clip_a
    simp only [List.filter_cons, List.filter_nil, hdA, hdB]
    simp [first_highest_track]
  · have hge : (150 : ℕ) ≤ i := by omega
    have hA : ¬ (clip_a.start_time ≤ (i : ℚ) / 30 ∧ (i : ℚ) / 30 < clip_a.get_end_time) := by
      rintro ⟨_, hend⟩
      rw [clip_a_end, div_lt_iff₀ h30] at hend
      have hc : (150 : ℚ) ≤ (i : ℚ) := by exact_mod_cast hge
      linarith
    have hB : clip_b.start_time ≤ (i : ℚ) / 30 ∧ (i : ℚ) / 30 < clip_b.get_end_time := by
      constructor
      · show (5 : ℚ) ≤ (i : ℚ) / 30
        rw [le_div_iff₀ h30]
        have hc : (150 : ℚ) ≤ (i : ℚ) := by exact_mod_cast hge
        linarith
      · rw [clip_b_end, div_lt_iff₀ h30]
        have hc : (i : ℚ) < 240 := by exact_mod_cast hi
        linarith
    have hdA := decide_eq_false hA
    have hdB := decide_eq_true hB
    rw [if_neg hlt]
    show first_highest_track
      (List.filter
        (fun c => decide (c.start_time ≤ (i : ℚ) / 30 ∧ (i : ℚ) / 30 < c.get_end_time))
        [clip_a, clip_b]) = some clip_b
    simp only [List.filter_cons, List.filter_nil, hdA, hdB]
    simp [first_highest_track]

/-- Folding `plan_step` over a run of frame indices on which the active
clip equals the state's `current_clip` only grows the open segment. -/
theorem plan_fold_same (tl : Timeline) (timeline_fps : ℚ) (m : ℕ) :
    ∀ (k : ℕ) (s : PlanState),
      (∀ i, k ≤ i → i < k + m →
        get_clip_at_timeline_time tl ((i : ℚ) / timeline_fps) = s.current_clip) →
      (List.range' k m).foldl (plan_step tl timeline_fps) s =
        { s with frames_in_segment := s.frames_in_segment + m } := by
  induction m with
  | zero => intro k s _; rfl
  | succ m ih =>
    intro k s h
    have hk : get_clip_at_timeline_time tl ((k : ℚ) / timeline_fps) = s.current_clip :=
      h k (le_refl k) (by omega)
    rw [List.range'_succ, List.foldl_cons, plan_step_same tl timeline_fps s k hk]
    rw [ih (k + 1) { s with frames_in_segment := s.frames_in_segment + 1 }
      (fun i h1 h2 => h i (by omega) (by omega))]
    have harith : s.frames_in_segment + 1 + m = s.frames_in_segment + (m + 1) := by
      omega
    simp only [harith]

/-- C7: on the spec's two-clip example at 30 fps, `total_frames` is 240
and the plan is exactly two clip segments — clip A on frames 0–149 and
clip B on frames 150–239 — with no blank segment, since B's start
exactly equals A's end. -/
theorem c7_example_plan :
    total_frames_of (get_timeline_duration timeline_c7) 30 = 240 ∧
    build_render_plan timeline_c7 240 30 =
      [{ kind := SegKind.clip, clip := some clip_a, start_frame := 0, count := 150,
         timeline_start := 0 },
       { kind := SegKind.clip, clip := some clip_b, start_frame := 150, count := 90,
         timeline_start := 5 }] := by
  constructor
  · norm_num [timeline_c7, get_timeline_duration, clip_a, clip_b,
      TimelineClip.get_end_time, TimelineClip.get_trimmed_duration,
      TimelineClip.init, total_frames_of]
    decide
  · have hsplit : List.range 240 = List.range' 0 150 ++ List.range' 150 90 := by
      rw [List.range_eq_range']
      have h := List.range'_append 0 150 90 1
      norm_num at h
      exact h.symm
    have hact0 : get_clip_at_timeline_time timeline_c7 ((0 : ℕ) / (30 : ℚ)) =
        some clip_a := by
      have := c7_active 0 (by omega)
      rwa [if_pos (by omega)] at this
    have hact150 : get_clip_at_timeline_time timeline_c7 ((150 : ℕ) / (30 : ℚ)) =
        some clip_b := by
      have := c7_active 150 (by omega)
      rwa [if_neg (by omega)] at this
    have hstep0 : plan_step timeline_c7 30
        { segments := [], current_clip := none,
          segment_start_frame := 0, frames_in_segment := 0 } 0 =
        { segments := [], current_clip := some clip_a,
          segment_start_frame := 0, frames_in_segment := 1 } := by
      rw [plan_step_changed timeline_c7 30 _ 0 (by rw [hact0]; simp)]
      rw [hact0]
      simp [flush_segment]
    have hrunA : (List.range' 1 149).foldl (plan_step timeline_c7 30)
        { segments := [], current_clip := some clip_a,
          segment_start_frame := 0, frames_in_segment := 1 } =
        { segments := [], current_clip := some clip_a,
          segment_start_frame := 0, frames_in_segment := 150 } := by
      rw [plan_fold_same timeline_c7 30 149 1 _ ?_]
      · intro i h1 h2
        have := c7_active i (by omega)
        rwa [if_pos (by omega)] at this
    have hstep150 : plan_step timeline_c7 30
        { segments := [], current_clip := some clip_a,
          segment_start_frame := 0, frames_in_segment := 150 } 150 =
        { segments :=
            [{ kind := SegKind.clip, clip := some clip_a, start_frame := 0,
               count := 150, timeline_start := 0 }],
          current_clip := some clip_b,
          segment_start_frame := 150, frames_in_segment := 1 } := by
      rw [plan_step_changed timeline_c7 30 _ 150
        (by rw [hact150]; simp [clip_b_ne_clip_a])]
      rw [hact150]
      simp [flush_segment]
    have hrunB : (List.range' 151 89).foldl (plan_step timeline_c7 30)
        { segments :=
            [{ kind := SegKind.clip, clip := some clip_a, start_frame := 0,
               count := 150, timeline_start := 0 }],
          current_clip := some clip_b,
          segment_start_frame := 150, frames_in_segment := 1 } =
        { segments :=
            [{ kind := SegKind.clip, clip := some clip_a, start_frame := 0,
               count := 150, timeline_start := 0 }],
          current_clip := some clip_b,
          segment_start_frame := 150, frames_in_segment := 90 } := by
      rw [plan_fold_same timeline_c7 30 89 151 _ ?_]
      · intro i h1 h2
        have := c7_active i (by omega)
        rwa [if_neg (by omega)] at this
    unfold build_render_plan
    rw [if_neg (by omega : ¬ (240 : ℕ) = 0)]
    rw [hsplit, List.foldl_append]
    rw [show List.range' 0 150 = 0 :: List.range' 1 149 from rfl]
    rw [List.foldl_cons, hstep0, hrunA]
    rw [show List.range' 150 90 = 150 :: List.range' 151 89 from rfl]
    rw [List.foldl_cons, hstep150, hrunB]
    simp [flush_segment]
    norm_num
